import Mathlib

/-!
Verification of the poly-relayer hub-chain submitter and listener
(`relayer/poly/poly.go`) against its natural-language specification.

The Go source is shallowly embedded: machine integers become `Nat` with
explicit `% 2^32` / `% 2^64` where Go's fixed-width arithmetic matters,
byte strings become `List Nat`, fallible calls return `Except`, and the
external SDK / crypto / queue capabilities are passed in as oracle
records, so every function here is executable on concrete inputs.
-/

namespace PolyRelayer

/-- Byte strings are lists of byte values. -/
abbrev Bytes := List Nat

/-- Value of a single hex digit, as in Go's `encoding/hex`. -/
def hexVal (c : Char) : Option Nat :=
  if '0' ≤ c ∧ c ≤ '9' then some (c.toNat - '0'.toNat)
  else if 'a' ≤ c ∧ c ≤ 'f' then some (c.toNat - 'a'.toNat + 10)
  else if 'A' ≤ c ∧ c ≤ 'F' then some (c.toNat - 'A'.toNat + 10)
  else none

/-- Go `hex.DecodeString` on a character list: consumes hex-digit pairs,
failing on an odd-length input or a non-hex character. -/
def hexDecodeList : List Char → Option Bytes
  | [] => some []
  | [_] => none
  | a :: b :: rest =>
    match hexVal a, hexVal b, hexDecodeList rest with
    | some x, some y, some bs => some ((x * 16 + y) :: bs)
    | _, _, _ => none

/-- Go `hex.DecodeString` on a string. -/
def hexDecode (s : String) : Option Bytes := hexDecodeList s.toList

/-- The cross-chain parameter deserialized from a Merkle value
(`ccom.MakeTxParam`); only the fields this file's claims touch. -/
structure MakeTxParam where
  method : String
  toContractAddress : Bytes
  deriving DecidableEq, Repr

/-- `ccom.ToMerkleValue`: carries the optional decoded `MakeTxParam`. -/
structure MerkleValue where
  makeTxParam : Option MakeTxParam
  deriving DecidableEq, Repr

/-- A hub-chain (poly) header, `types.Header`: only the fields used by
`CheckEpoch`, `ComposeTx` and `CollectSigs`. -/
structure PolyHeader where
  height : Nat
  nextBookkeeper : Bytes
  consensusPayload : Bytes
  sigData : List Bytes
  deriving DecidableEq, Repr

/-- `pcom.ADDRESS_EMPTY`: the all-zero 20-byte address. -/
def ADDRESS_EMPTY : Bytes := List.replicate 20 0

/-- A side-chain header as carried on the sync channel (`msg.Header`). -/
structure SideHeader where
  height : Nat
  data : Bytes
  hash : Bytes
  deriving DecidableEq, Repr

/-- `msg.TxType` values used here. -/
inductive TxType
  | src
  | poly
  deriving DecidableEq, Repr

/-- The central transaction record `msg.Tx`, restricted to the fields
read or written by the code under verification. -/
structure Tx where
  srcChainId : Nat := 0
  srcHash : String := ""
  srcHeight : Nat := 0
  srcProofHeight : Nat := 0
  srcEvent : String := ""
  srcProof : String := ""
  polyHash : String := ""
  polyHeight : Nat := 0
  polyKey : String := ""
  polyHeader : Option PolyHeader := none
  anchorHeader : Option PolyHeader := none
  anchorProof : String := ""
  merkleValue : Option MerkleValue := none
  auditPath : Bytes := []
  param : Option MakeTxParam := none
  dstChainId : Nat := 0
  dstProxy : String := ""
  dstPolyEpochStartHeight : Nat := 0
  dstPolyKeepers : Bytes := []
  dstSigs : Bytes := []
  attempts : Nat := 0
  txType : TxType := .src
  txId : String := ""
  deriving DecidableEq, Repr

/-! ## The submit operation (`Submitter.submit`) -/

/-- Structured error results of `submit`; each variant corresponds to one
`fmt.Errorf` site in the Go code and carries the same diagnostic data. -/
inductive SubmitErr
  | missingFields
  | decodeEvent (value : String)
  | decodeProof (value : String)
  | importFailed (e : String)
  deriving DecidableEq, Repr

/-- Oracle for the hub-chain RPC call `ImportOuterTransfer`, returning
the resulting transaction hash or an error. -/
structure ImportOracle where importOuterTransfer :
    Nat → Bytes → Nat → Bytes → Except String String

/-- `Submitter.submit`: required-field check, hex decode of the source
event and proof, hub-chain import, and recording of the resulting hash. -/
def submit (node : ImportOracle) (tx : Tx) : Except SubmitErr Tx :=
  if tx.srcHeight = 0 ∨ tx.srcProof = "" ∨ tx.srcEvent = "" ∨
      tx.srcChainId = 0 ∨ tx.srcHash = "" ∨ tx.srcProofHeight = 0 then
    .error .missingFields
  else
    match hexDecode tx.srcEvent with
    | none => .error (.decodeEvent tx.srcEvent)
    | some value =>
      match hexDecode tx.srcProof with
      | none => .error (.decodeProof tx.srcProof)
      | some proof =>
        match node.importOuterTransfer tx.srcChainId value
            (tx.srcProofHeight % 2 ^ 32) proof with
        | .error e => .error (.importFailed e)
        | .ok h => .ok { tx with polyHash := h }

/-- The required-source-fields predicate of the Data Model invariant. -/
def srcFieldsPresent (tx : Tx) : Prop :=
  tx.srcHeight ≠ 0 ∧ tx.srcProof ≠ "" ∧ tx.srcEvent ≠ "" ∧
  tx.srcChainId ≠ 0 ∧ tx.srcHash ≠ "" ∧ tx.srcProofHeight ≠ 0

instance (tx : Tx) : Decidable (srcFieldsPresent tx) := by
  unfold srcFieldsPresent; infer_instance

/-! ## Event scanning (`Listener.Scan`, `Listener.scanTx`) -/

/-- One positional value of a notification's `States` array
(`[]interface{}` in Go): the shapes consumed here are strings and
float64-encoded whole numbers. -/
inductive SVal
  | str (v : String)
  | num (v : Nat)
  deriving DecidableEq, Repr

/-- Go comma-ok string assertion `x.(string)`. -/
def SVal.asString : SVal → Option String
  | .str v => some v
  | _ => none

/-- Go number assertion `x.(float64)` (values here are whole numbers). -/
def SVal.asNum : SVal → Option Nat
  | .num v => some v
  | _ => none

/-- One notification of a smart-contract event (`scom.NotifyEventInfo`). -/
structure Notification where
  contractAddress : String
  states : List SVal
  deriving DecidableEq, Repr

/-- A smart-contract event (`scom.SmartContactEvent`). -/
structure SmartEvent where
  txHash : String
  notify : List Notification
  deriving DecidableEq, Repr

/-- Modelled from the spec: `poly.CCM_ADDRESS`, the hub chain's
cross-chain-manager contract address, lives in `bridge-common` which is
outside the provided source; its concrete value is irrelevant here. -/
def CCM_ADDRESS : String := "0300000000000000000000000000000000000000"

/-- Modelled from the spec: numeric chain ids `base.NEO`, `base.NEO3`,
`base.ONT` from `bridge-common/base` (outside the provided source), the
chains whose transaction identifiers use the reversed byte order. -/
def NEO : Nat := 4

/-- Modelled from the spec: see `NEO`. -/
def NEO3 : Nat := 14

/-- Modelled from the spec: see `NEO`. -/
def ONT : Nat := 3

/-- Modelled from the spec: `util.ReverseHex` (in `bridge-common`,
outside the provided source) reverses the byte order of a hex string,
i.e. reverses the sequence of hex-digit pairs. -/
def reverseHexChars : List Char → List Char
  | a :: b :: rest => reverseHexChars rest ++ [a, b]
  | rest => rest

/-- `util.ReverseHex` on strings; see `reverseHexChars`. -/
def reverseHex (s : String) : String := ⟨reverseHexChars s.toList⟩

/-- Processing of one notification by `Listener.Scan` at block `height`.
Outer `none` models a Go panic from an unchecked type assertion
(`states[i].(float64)` / `states[i].(string)`); `some none` is a skipped
notification; `some (some tx)` is a produced record. -/
def scanNotify (height : Nat) (txHash : String) (n : Notification) :
    Option (Option Tx) :=
  if n.contractAddress ≠ CCM_ADDRESS then some none
  else if n.states.length < 6 then some none
  else
    let method := ((n.states.get? 0).bind SVal.asString).getD ""
    if method ≠ "makeProof" then some none
    else
      match (n.states.get? 2).bind SVal.asNum with
      | none => none
      | some dstChain =>
        if dstChain = 0 then some none
        else
          match (n.states.get? 5).bind SVal.asString,
              (n.states.get? 3).bind SVal.asString,
              (n.states.get? 1).bind SVal.asNum with
          | some key, some txid, some src =>
            some (some { dstChainId := dstChain, polyKey := key,
                         polyHeight := height % 2 ^ 32, polyHash := txHash,
                         txType := .poly,
                         txId := if src = NEO ∨ src = NEO3 ∨ src = ONT then
                             reverseHex txid
                           else txid,
                         srcChainId := src })
          | _, _, _ => none

/-- The inner notification loop of `Listener.Scan` over one event. -/
def scanNotifies (height : Nat) (txHash : String) :
    List Notification → Option (List Tx)
  | [] => some []
  | n :: rest =>
    match scanNotify height txHash n with
    | none => none
    | some none => scanNotifies height txHash rest
    | some (some tx) =>
      match scanNotifies height txHash rest with
      | none => none
      | some txs => some (tx :: txs)

/-- The outer event loop of `Listener.Scan`. -/
def scanEvents (height : Nat) : List SmartEvent → Option (List Tx)
  | [] => some []
  | e :: rest =>
    match scanNotifies height e.txHash e.notify, scanEvents height rest with
    | some a, some b => some (a ++ b)
    | _, _ => none

/-- `Listener.Scan`: the RPC fetch `GetSmartContractEventByBlock` at
`uint32(height)` is abstracted to the given event list; `none` models a
panic from an unchecked type assertion. -/
def Scan (height : Nat) (events : List SmartEvent) : Option (List Tx) :=
  scanEvents height events

/-- Error results of `Listener.validate` / `Listener.Validate`; the
`violation` variants are the `msg.ERR_TX_VOILATION`-wrapped errors, each
carrying the claimed value and the independently re-derived one. -/
inductive VErr
  | rpc (m : String)
  | noEvent (hash : String)
  | proofMissing
  | violationSrcChainId (claimed got : Nat)
  | violationDstChainId (claimed got : Nat)
  | violationToContract (claimed got : String)
  deriving DecidableEq, Repr

/-- Whether an error wraps `msg.ERR_TX_VOILATION`. -/
def VErr.isViolation : VErr → Bool
  | .violationSrcChainId _ _ => true
  | .violationDstChainId _ _ => true
  | .violationToContract _ _ => true
  | _ => false

/-- The notification loop of `Listener.scanTx`: like `scanNotify` but it
returns the first produced record and reads the hub height from argument
5 (`states[4]`) instead of the scanned block height. -/
def scanTxNotifies (eventHash : String) :
    List Notification → Option (Option Tx)
  | [] => some none
  | n :: rest =>
    if n.contractAddress ≠ CCM_ADDRESS then scanTxNotifies eventHash rest
    else if n.states.length < 6 then scanTxNotifies eventHash rest
    else
      let method := ((n.states.get? 0).bind SVal.asString).getD ""
      if method ≠ "makeProof" then scanTxNotifies eventHash rest
      else
        match (n.states.get? 2).bind SVal.asNum with
        | none => none
        | some dstChain =>
          if dstChain = 0 then scanTxNotifies eventHash rest
          else
            match (n.states.get? 5).bind SVal.asString,
                (n.states.get? 4).bind SVal.asNum,
                (n.states.get? 3).bind SVal.asString,
                (n.states.get? 1).bind SVal.asNum with
            | some key, some ph, some txid, some src =>
              some (some { dstChainId := dstChain, polyKey := key,
                           polyHeight := ph % 2 ^ 32, polyHash := eventHash,
                           txType := .poly,
                           txId := if src = NEO ∨ src = NEO3 ∨ src = ONT then
                               reverseHex txid
                             else txid,
                           srcChainId := src })
            | _, _, _, _ => none

/-- `Listener.scanTx`: fetch the event for the hash (result supplied by
the oracle), scan its notifications, and fail with the
"hash ... hasn't event" error when no record is produced. Outer `none`
models a panic. As in the source, a `.ok` result always carries a
record, so the caller's nil-record branch is unreachable. -/
def scanTx (hash : String) (eventResult : Except String SmartEvent) :
    Option (Except VErr Tx) :=
  match eventResult with
  | .error e => some (.error (.rpc e))
  | .ok event =>
    match scanTxNotifies event.txHash event.notify with
    | none => none
    | some (some tx) => some (.ok tx)
    | some none => some (.error (.noEvent hash))

/-- Hex digit character for encoding (lowercase, as Go's
`hex.EncodeToString`). -/
def hexDigit (n : Nat) : Char :=
  if n < 10 then Char.ofNat ('0'.toNat + n)
  else Char.ofNat ('a'.toNat + (n - 10))

/-- Go `hex.EncodeToString`. -/
def hexEncode (bs : Bytes) : String :=
  ⟨(bs.map (fun b => [hexDigit (b / 16 % 16), hexDigit (b % 16)])).flatten⟩

/-- Modelled from the spec: `util.LowerHex` (in `bridge-common`, outside
the provided source) lowercases a hex string and strips a leading "0x",
giving the case-insensitive address comparison of §4.6. -/
def lowerHex (s : String) : String :=
  let t := s.toLower
  if t.startsWith "0x" then t.drop 2 else t

/-- The node capability used by `Listener.validate`: the event fetch of
`scanTx` and the proof-value fetch. `getProofValue` stands for
`Submitter.getProof(node, height, key)`, which is referenced by
`validate` but absent from the provided source; modelled from the spec
(§4.5): it queries the cross-state proof at the height and key and
deserializes the value into the cross-chain parameter, so it is an
oracle returning the decoded parameter (possibly absent) or an error. -/
structure ValidateNode where
  getSmartContractEvent : String → Except String SmartEvent
  getProofValue : Nat → String → Except String (Option MerkleValue)

/-- `Listener.validate` against one node. Outer `none` models a panic
(including the unguarded `value.MakeTxParam` dereference). -/
def validate (node : ValidateNode) (tx : Tx) : Option (Except VErr Unit) :=
  match scanTx tx.polyHash (node.getSmartContractEvent tx.polyHash) with
  | none => none
  | some (.error e) => some (.error e)
  | some (.ok t) =>
    if tx.srcChainId ≠ t.srcChainId then
      some (.error (.violationSrcChainId tx.srcChainId t.srcChainId))
    else if tx.dstChainId ≠ t.dstChainId then
      some (.error (.violationDstChainId tx.dstChainId t.dstChainId))
    else
      match node.getProofValue t.polyHeight t.polyKey with
      | .error e => some (.error (.rpc e))
      | .ok none => some (.error .proofMissing)
      | .ok (some value) =>
        match value.makeTxParam with
        | none => none
        | some p =>
          let a := lowerHex (hexEncode p.toContractAddress)
          let b := lowerHex tx.dstProxy
          if a ≠ b then some (.error (.violationToContract b a))
          else some (.ok ())

/-- The retry loop of `Listener.Validate` over the remaining nodes: on a
clean re-validation it executes a bare `return`, which returns the named
result `err` still holding the primary node's error. -/
def validateLoop (tx : Tx) (primaryErr : VErr) :
    List ValidateNode → Option (Except VErr Unit)
  | [] => some (.error primaryErr)
  | node :: rest =>
    match validate node tx with
    | none => none
    | some (.ok ()) => some (.error primaryErr)
    | some (.error _) => validateLoop tx primaryErr rest

/-- `Listener.Validate`: validate against the primary node, then retry
the others (see `validateLoop` for the named-return subtlety). -/
def Validate (primary : ValidateNode) (others : List ValidateNode)
    (tx : Tx) : Option (Except VErr Unit) :=
  match validate primary tx with
  | none => none
  | some (.ok ()) => some (.ok ())
  | some (.error e) => validateLoop tx e others

instance {ε α : Type} [DecidableEq ε] [DecidableEq α] :
    DecidableEq (Except ε α) := fun x y =>
  match x, y with
  | .ok a, .ok b =>
    if h : a = b then .isTrue (by rw [h]) else .isFalse (by simp [h])
  | .error a, .error b =>
    if h : a = b then .isTrue (by rw [h]) else .isFalse (by simp [h])
  | .ok _, .error _ => .isFalse (by simp)
  | .error _, .ok _ => .isFalse (by simp)

/-! ## Epoch detection (`Submitter.CheckEpoch`) -/

/-- Keeper public keys are kept as their raw byte representation. -/
abbrev PubKey := Bytes

/-- A peer entry of the vbft consensus payload (`vconf.VbftBlockInfo`,
field `NewChainConfig.Peers[i].ID`). -/
structure VbftPeer where
  id : String
  deriving DecidableEq, Repr

/-- The decoded vbft consensus payload, restricted to the consumed
field. -/
structure VbftBlockInfo where
  peers : List VbftPeer
  deriving DecidableEq, Repr

/-- Go `hex.DecodeString` with its error discarded (`keyStr, _ := ...`):
the successfully decoded head of the input is kept. -/
def hexDecodeLossy : List Char → Bytes
  | a :: b :: rest =>
    match hexVal a, hexVal b with
    | some x, some y => (x * 16 + y) :: hexDecodeLossy rest
    | _, _ => []
  | _ => []

/-- `pcom.ZeroCopySink.WriteUint64`: 8 bytes little-endian. -/
def writeUint64LE (n : Nat) : Bytes :=
  (List.range 8).map (fun i => n / 256 ^ i % 256)

/-- `pcom` var-uint encoding used by `WriteVarBytes`. -/
def writeVarUint (n : Nat) : Bytes :=
  if n < 0xFD then [n]
  else if n ≤ 0xFFFF then 0xFD :: (List.range 2).map (fun i => n / 256 ^ i % 256)
  else if n ≤ 0xFFFFFFFF then 0xFE :: (List.range 4).map (fun i => n / 256 ^ i % 256)
  else 0xFF :: (List.range 8).map (fun i => n / 256 ^ i % 256)

/-- `pcom.ZeroCopySink.WriteVarBytes`: var-uint length then the bytes. -/
def writeVarBytes (bs : Bytes) : Bytes :=
  writeVarUint bs.length ++ bs

/-- The external crypto capabilities used by `CheckEpoch` and
`CollectSigs` (`keypair`, `crypto`, `msg` helpers, `json.Unmarshal`),
passed as oracles. `deserializePublicKey`'s error is discarded by the
source, so it is total here. -/
structure Crypto where
  deserializePublicKey : Bytes → PubKey
  sortPublicKeys : List PubKey → List PubKey
  encodePubKey : PubKey → Except String Bytes
  encodeEthPubKey : PubKey → Except String Bytes
  keccak256 : Bytes → Bytes
  unmarshalVbft : Bytes → Except String VbftBlockInfo

/-- Error results of `CheckEpoch`. -/
inductive EpochErr
  | noKeepers
  | unmarshal (m : String)
  | encode (m : String)
  deriving DecidableEq, Repr

/-- The address-style derivation applied to each keeper key: drop the
leading byte of the uncompressed encoding, Keccak256, keep the trailing
20 bytes (`crypto.Keccak256(bytes[1:])[12:]`). -/
def keeperHash (c : Crypto) (ethBytes : Bytes) : Bytes :=
  (c.keccak256 (ethBytes.drop 1)).drop 12

/-- The per-key loop of `CheckEpoch`: the first buffer concatenates the
native encodings, the second concatenates the length-prefixed hashed
derivations; the first encoding error aborts. -/
def encodeKeeperLoop (c : Crypto) : List PubKey → Except EpochErr (Bytes × Bytes)
  | [] => .ok ([], [])
  | k :: rest =>
    match c.encodePubKey k with
    | .error e => .error (.encode e)
    | .ok pkBytes =>
      match c.encodeEthPubKey k with
      | .error e => .error (.encode e)
      | .ok ethBytes =>
        match encodeKeeperLoop c rest with
        | .error e => .error e
        | .ok (pks, sink) =>
          .ok (pkBytes ++ pks, writeVarBytes (keeperHash c ethBytes) ++ sink)

/-- The sorted keeper list decoded from a vbft payload: each peer id is
hex-decoded (error discarded), deserialized, and the set sorted into
canonical order. -/
def sortedKeepers (c : Crypto) (info : VbftBlockInfo) : List PubKey :=
  c.sortPublicKeys (info.peers.map
    (fun p => c.deserializePublicKey (hexDecodeLossy p.id.toList)))

/-- The canonical keeper-set encoding a header's payload induces: the
keeper count as 8 little-endian bytes, then per sorted key the
length-prefixed trailing-20-bytes-of-Keccak256 derivation. -/
def keeperSink (c : Crypto) (info : VbftBlockInfo) : Except EpochErr Bytes :=
  match encodeKeeperLoop c (sortedKeepers c info) with
  | .error e => .error e
  | .ok (_, body) => .ok (writeUint64LE (sortedKeepers c info).length ++ body)

/-- `Submitter.CheckEpoch`: empty keeper baseline is an error; an empty
next-bookkeeper reports no rotation; otherwise the payload is decoded
and rotation is reported iff the hashed encoding differs from the Tx's
recorded `DstPolyKeepers`. Returns `(epoch, pubKeys)` as the source
does. -/
def checkEpoch (c : Crypto) (tx : Tx) (hdr : PolyHeader) :
    Except EpochErr (Bool × Bytes) :=
  if tx.dstPolyKeepers = [] then .error .noKeepers
  else if hdr.nextBookkeeper = ADDRESS_EMPTY then .ok (false, [])
  else
    match c.unmarshalVbft hdr.consensusPayload with
    | .error e => .error (.unmarshal e)
    | .ok info =>
      match encodeKeeperLoop c (sortedKeepers c info) with
      | .error e => .error e
      | .ok (pubKeys, body) =>
        let sink := writeUint64LE (sortedKeepers c info).length ++ body
        .ok (decide (sink ≠ tx.dstPolyKeepers), pubKeys)

/-! ## Proof composition (`Submitter.ComposeTx`, `Submitter.CollectSigs`) -/

/-- The loop of `CollectSigs`: each signature of the chosen header is
converted to the destination encoding and the results concatenated in
header order. -/
def collectSigsLoop (conv : Bytes → Except String Bytes) :
    List Bytes → Except String Bytes
  | [] => .ok []
  | s :: rest =>
    match conv s with
    | .error e => .error e
    | .ok b =>
      match collectSigsLoop conv rest with
      | .error e => .error e
      | .ok bs => .ok (b ++ bs)

/-- `Submitter.CollectSigs`: sign with the anchor header when one was
selected together with its proof, else the primary header. Outer `none`
models the nil-header dereference (unreachable from `ComposeTx`, which
sets `PolyHeader` first). -/
def collectSigs (conv : Bytes → Except String Bytes) (tx : Tx) :
    Option (Except String Tx) :=
  let sigHeader :=
    match tx.anchorHeader, decide (tx.anchorProof ≠ "") with
    | some ah, true => some ah
    | _, _ => tx.polyHeader
  match sigHeader with
  | none => none
  | some hdr =>
    match collectSigsLoop conv hdr.sigData with
    | .error e => some (.error e)
    | .ok sigs => some (.ok { tx with dstSigs := sigs })

/-- The allow-list gate of `ComposeTx` exactly as written in the
source: the error branch is taken when the decoded parameter is missing
OR when `AllowMethod` returns TRUE for its method. -/
def composeTxRejects (allowMethod : String → Bool) (mv : MerkleValue) : Bool :=
  match mv.makeTxParam with
  | none => true
  | some p => allowMethod p.method

/-- Modelled from the spec: the gate the spec states (§3 invariant and
§9 note) — reject exactly when the parameter is missing or its method is
NOT on the allow-list. Kept separate so the two can be compared. -/
def specRejects (allowMethod : String → Bool) (mv : MerkleValue) : Bool :=
  match mv.makeTxParam with
  | none => true
  | some p => !allowMethod p.method

/-- RPC fetches performed by `ComposeTx`, recorded for the anchor-rule
claims. -/
inductive Fetch
  | header (h : Nat)
  | merkleProof (a b : Nat)
  deriving DecidableEq, Repr

/-- Error results of `ComposeTx`. -/
inductive ComposeErr
  | invalidPolyHash
  | noEpochStartHeight
  | rpc (m : String)
  | epoch (e : EpochErr)
  | invalidTx (srcChainId : Nat) (polyHash : String) (method : String)
  | sigs (m : String)
  deriving DecidableEq, Repr

/-- The hub-node capability used by `ComposeTx`. `getPolyParams` stands
for `Submitter.GetPolyParams`, whose internals (audit-path parsing and
`ToMerkleValue` deserialization) live in external SDK packages; it is
abstracted at that call boundary to the decoded value and audit path. -/
structure ComposeNode where
  getBlockHeightByTxHash : String → Except String Nat
  getHeaderByHeight : Nat → Except String PolyHeader
  getMerkleProof : Nat → Nat → Except String String
  getPolyParams : Tx → Except String (MerkleValue × Bytes)

/-- The anchor fetch block of `ComposeTx` (`if anchorHeight > 0`): fetch
the anchor header and the Merkle proof linking `polyHeight+1` to it, and
store both on the Tx. -/
def fetchAnchor (node : ComposeNode) (tx : Tx) (polyHeight anchorHeight : Nat) :
    Except String (Tx × List Fetch) :=
  if anchorHeight > 0 then
    match node.getHeaderByHeight anchorHeight with
    | .error e => .error e
    | .ok ah =>
      match node.getMerkleProof ((polyHeight + 1) % 2 ^ 32) anchorHeight with
      | .error e => .error e
      | .ok auditPath =>
        .ok ({ tx with anchorHeader := some ah, anchorProof := auditPath },
             [.header anchorHeight,
              .merkleProof ((polyHeight + 1) % 2 ^ 32) anchorHeight])
  else .ok (tx, [])

/-- The tail of `ComposeTx` after the anchor block: derive the
cross-chain parameter and audit path via `GetPolyParams`, apply the
allow-list gate exactly as written in the source, and collect
signatures. `log` is the list of fetches performed so far. Outer `none`
models a panic (the `tx.MerkleValue.MakeTxParam.Method` dereference in
the error branch when `tx.Param` is set but the decoded parameter is
nil, and the nil-header case of `CollectSigs`). -/
def composeFinish (node : ComposeNode) (conv : Bytes → Except String Bytes)
    (allowMethod : String → Bool) (tx : Tx) (log : List Fetch) :
    Option (Except ComposeErr (Tx × List Fetch)) :=
  match node.getPolyParams tx with
  | .error e => some (.error (.rpc e))
  | .ok (mv, path) =>
    let tx := { tx with merkleValue := some mv, auditPath := path }
    if composeTxRejects allowMethod mv then
      match mv.makeTxParam, decide (tx.param.isSome) with
      | none, true => none
      | none, false =>
        some (.error (.invalidTx tx.srcChainId tx.polyHash "missing param"))
      | some p, b =>
        some (.error (.invalidTx tx.srcChainId tx.polyHash
          (if b then p.method else "missing param")))
    else
      match collectSigs conv tx with
      | none => none
      | some (.error e) => some (.error (.sigs e))
      | some (.ok tx) => some (.ok (tx, log))

/-- `Submitter.ComposeTx`. All heights are uint32 in the source, so
increments are taken `% 2^32`. The result carries the list of header /
Merkle-proof fetches performed; see `fetchAnchor` and `composeFinish`
for the anchor block and the tail. -/
def composeTx (node : ComposeNode) (c : Crypto)
    (conv : Bytes → Except String Bytes) (allowMethod : String → Bool)
    (tx : Tx) : Option (Except ComposeErr (Tx × List Fetch)) :=
  if tx.polyHash = "" then some (.error .invalidPolyHash)
  else if tx.dstPolyEpochStartHeight = 0 then some (.error .noEpochStartHeight)
  else
    match (if tx.polyHeight = 0 then
        (node.getBlockHeightByTxHash tx.polyHash).map (· % 2 ^ 32)
      else .ok tx.polyHeight) with
    | .error e => some (.error (.rpc e))
    | .ok polyHeight =>
      match node.getHeaderByHeight ((polyHeight + 1) % 2 ^ 32) with
      | .error e => some (.error (.rpc e))
      | .ok hdr =>
        match (if polyHeight < tx.dstPolyEpochStartHeight then
            Except.ok ((tx.dstPolyEpochStartHeight + 1) % 2 ^ 32)
          else
            match checkEpoch c
                { tx with polyHeight := polyHeight, polyHeader := some hdr }
                hdr with
            | .error e => Except.error (ComposeErr.epoch e)
            | .ok (isEpoch, _) =>
              Except.ok (if isEpoch then (polyHeight + 2) % 2 ^ 32 else 0) :
            Except ComposeErr Nat) with
        | .error e => some (.error e)
        | .ok anchorHeight =>
          match fetchAnchor node
              { tx with polyHeight := polyHeight, polyHeader := some hdr }
              polyHeight anchorHeight with
          | .error e => some (.error (.rpc e))
          | .ok (tx2, log1) =>
            composeFinish node conv allowMethod tx2
              (.header ((polyHeight + 1) % 2 ^ 32) :: log1)

/-! ## The submission worker loop (`Submitter.run`) -/

/-- Program counter of a submission worker. -/
inductive RunPC
  | atSelect
  | atPop
  | exited
  deriving DecidableEq, Repr

/-- State of one submission worker together with the shared queue:
`pops` counts `bus.Pop` invocations; `submitted` records successful
submissions. -/
structure RunState where
  pc : RunPC
  queue : List Tx
  pops : Nat
  submitted : List Tx
  deriving DecidableEq, Repr

/-- The loop body after the `select` (pop, idle-sleep on nil, submit,
increment-and-requeue on failure), ending back at the `select`. -/
def runBodyStep (submitOk : Tx → Bool) (s : RunState) : RunState :=
  match s.queue with
  | [] => { s with pc := .atSelect, pops := s.pops + 1 }
  | tx :: rest =>
    if submitOk tx then
      { s with pc := .atSelect, queue := rest, pops := s.pops + 1,
               submitted := s.submitted ++ [tx] }
    else
      { s with pc := .atSelect,
               queue := rest ++ [{ tx with attempts := tx.attempts + 1 }],
               pops := s.pops + 1 }

/-- One scheduler observation of the worker loop as WRITTEN in the
source: the `select` has the single case `<-s.Done()` and no `default`,
so it blocks until the done-signal is ready and then returns; there is
no edge from the `select` into the loop body. -/
def runCodeStep (submitOk : Tx → Bool) (doneReady : Bool) (s : RunState) :
    RunState :=
  match s.pc with
  | .atSelect => if doneReady then { s with pc := .exited } else s
  | .atPop => runBodyStep submitOk s
  | .exited => s

/-- Modelled from the spec: the worker loop the spec describes (§4.2,
§5) — the done-signal is observed non-blockingly and, while it is not
ready, the worker proceeds to pop and process the queue. -/
def runSpecStep (submitOk : Tx → Bool) (doneReady : Bool) (s : RunState) :
    RunState :=
  match s.pc with
  | .atSelect => if doneReady then { s with pc := .exited } else { s with pc := .atPop }
  | .atPop => runBodyStep submitOk s
  | .exited => s

/-- Run a worker machine over a finite schedule of done-signal
observations. -/
def runExec (step : Bool → RunState → RunState) (sched : List Bool)
    (s : RunState) : RunState :=
  sched.foldl (fun st d => step d st) s

/-- The initial state of a worker over a given queue. -/
def runInit (queue : List Tx) : RunState :=
  { pc := .atSelect, queue := queue, pops := 0, submitted := [] }

/-! ## Header sync (`Submitter.startSync`) -/

/-- Go uint64 subtraction `a - b` as the source computes it. -/
def sub64 (a b : Nat) : Nat :=
  (a + (2 ^ 64 - b % 2 ^ 64)) % 2 ^ 64

/-- Observable actions of the sync loop: a retrying batch submission
(`SubmitHeadersWithLoop`), the final best-effort submission
(`SubmitHeaders`, result ignored), and a value sent on the reset
channel. -/
inductive SyncAction
  | flushLoop (headers : List Bytes)
  | flushFinal (headers : List Bytes)
  | reset (height : Nat)
  deriving DecidableEq, Repr

/-- The chain capabilities of the sync loop: the duplicate check and the
retrying submission, which returns `some e` exactly on a terminal
fork-indicating error (transient failures are retried inside it
forever). -/
structure SyncOracle where
  checkHeaderExistence : SideHeader → Except String Bool
  submitWithLoop : List Bytes → Option String

/-- Single-mode (`Batch == 1`) processing of one header: skip when
already present; submit otherwise; on a terminal error (from the
existence check or a fork-indicating submission failure) signal
`height - 100` (uint64) on the reset channel. -/
def syncSingleOne (node : SyncOracle) (h : SideHeader) : List SyncAction :=
  match node.checkHeaderExistence h with
  | .ok true => []
  | .ok false =>
    match node.submitWithLoop [h.data] with
    | none => [.flushLoop [h.data]]
    | some _ => [.flushLoop [h.data], .reset (sub64 h.height 100)]
  | .error _ => [.reset (sub64 h.height 100)]

/-- Single-mode sync over the whole header stream. -/
def syncSingle (node : SyncOracle) (hs : List SideHeader) : List SyncAction :=
  (hs.map (syncSingleOne node)).flatten

/-- Events observed by the batch-mode loop: a received header or a flush
timeout; stream closure is the end of the event list. -/
inductive SyncEvent
  | recv (h : SideHeader)
  | timeout
  deriving DecidableEq, Repr

/-- The commit block of the batch loop: one retrying submission of the
buffer; on a terminal error signal `height - 100 - len(headers)`
(uint64, two wrapping subtractions) where `height` is the height of the
last received header. -/
def commitStep (node : SyncOracle) (height : Nat) (buf : List Bytes) :
    List SyncAction :=
  match node.submitWithLoop buf with
  | none => [.flushLoop buf]
  | some _ => [.flushLoop buf, .reset (sub64 (sub64 height 100) buf.length)]

/-- Batch-mode sync loop (`Batch > 1`): accumulate received headers,
commit on a full batch or on a timeout with a non-empty buffer, and on
stream closure perform one final best-effort submission of any
remainder, with no retry and no reset. -/
def syncBatch (node : SyncOracle) (batch : Nat) :
    List SyncEvent → Nat → List Bytes → List SyncAction
  | [], _, buf => if buf.length > 0 then [.flushFinal buf] else []
  | .recv h :: rest, _, buf =>
    let buf' := buf ++ [h.data]
    if buf'.length ≥ batch then
      commitStep node h.height buf' ++ syncBatch node batch rest h.height []
    else
      syncBatch node batch rest h.height buf'
  | .timeout :: rest, height, buf =>
    if buf.length > 0 then
      commitStep node height buf ++ syncBatch node batch rest height []
    else
      syncBatch node batch rest height buf

/-! ## Concrete fixtures used by witnesses and counterexamples -/

/-- A trivial crypto oracle for concrete evaluations. -/
def trivCrypto : Crypto :=
  { deserializePublicKey := id, sortPublicKeys := id,
    encodePubKey := fun k => .ok k,
    encodeEthPubKey := fun k => .ok (0 :: k),
    keccak256 := fun bs => List.replicate 12 0 ++ bs,
    unmarshalVbft := fun _ => .ok ⟨[]⟩ }

/-- A trivial signature conversion oracle. -/
def conv0 : Bytes → Except String Bytes := fun b => .ok b

/-- An import oracle that accepts everything with hash "dead". -/
def node7 : ImportOracle := { importOuterTransfer := fun _ _ _ _ => .ok "dead" }

/-- A Tx with all required source fields present and well-formed hex. -/
def tx7 : Tx :=
  { srcChainId := 2, srcHash := "sh", srcHeight := 11, srcProofHeight := 12,
    srcEvent := "ab", srcProof := "cd" }

/-- A concrete event holding one well-formed makeProof notification. -/
def ev6 : SmartEvent :=
  ⟨"h", [⟨CCM_ADDRESS, [.str "makeProof", .num 7, .num 3, .str "t",
                        .num 9, .str "k"]⟩]⟩

/-- A validate node serving `ev6` and a decoded parameter. -/
def vnode6 : ValidateNode :=
  { getSmartContractEvent := fun _ => .ok ev6,
    getProofValue := fun _ _ => .ok (some ⟨some ⟨"mm", [171]⟩⟩) }

/-- A Tx whose source chain id disagrees with `ev6`'s record. -/
def tx6 : Tx := { polyHash := "h", srcChainId := 2, dstChainId := 3 }

/-- Crypto oracle whose payload decode yields one peer "0a". -/
def crypto4 : Crypto :=
  { trivCrypto with unmarshalVbft := fun _ => .ok ⟨[⟨"0a"⟩]⟩ }

/-- A header with a non-empty next bookkeeper. -/
def hdr4 : PolyHeader := ⟨6, 1 :: List.replicate 19 0, [1], []⟩

/-- A Tx with a recorded keeper encoding differing from `hdr4`'s. -/
def tx4 : Tx := { dstPolyKeepers := [9] }

/-- The allow-list containing exactly "unlock". -/
def allowOnlyUnlock : String → Bool := fun m => m = "unlock"

/-- Compose node whose decoded parameter invokes the allow-listed
method "unlock". -/
def nodeC1a : ComposeNode :=
  { getBlockHeightByTxHash := fun _ => .ok 5,
    getHeaderByHeight := fun h => .ok ⟨h, ADDRESS_EMPTY, [], []⟩,
    getMerkleProof := fun _ _ => .ok "ap",
    getPolyParams := fun _ => .ok (⟨some ⟨"unlock", []⟩⟩, [7]) }

/-- Compose node whose decoded parameter invokes the NON-allow-listed
method "steal". -/
def nodeC1b : ComposeNode :=
  { nodeC1a with getPolyParams := fun _ => .ok (⟨some ⟨"steal", []⟩⟩, [7]) }

/-- A composable Tx past its destination epoch start (no rotation). -/
def txC1 : Tx :=
  { polyHash := "ph", polyHeight := 5, dstPolyEpochStartHeight := 3,
    dstPolyKeepers := [9], srcChainId := 2 }

/-- An allow-list rejecting every method (so the source's inverted gate
lets the composition through). -/
def allow3 : String → Bool := fun _ => false

/-- Compose node for the anchor-rule evaluations. -/
def node3 : ComposeNode :=
  { getBlockHeightByTxHash := fun _ => .ok 5,
    getHeaderByHeight := fun h => .ok ⟨h, ADDRESS_EMPTY, [], []⟩,
    getMerkleProof := fun _ _ => .ok "ap",
    getPolyParams := fun _ => .ok (⟨some ⟨"m", []⟩⟩, [7]) }

/-- A Tx whose destination epoch start height is the maximal uint32, so
`dstPolyEpochStartHeight + 1` wraps to 0. -/
def tx3 : Tx :=
  { polyHash := "ph", polyHeight := 5,
    dstPolyEpochStartHeight := 4294967295, dstPolyKeepers := [9] }

/-- A Tx before a normal (non-wrapping) destination epoch start. -/
def txC3w : Tx :=
  { polyHash := "ph", polyHeight := 5, dstPolyEpochStartHeight := 10,
    dstPolyKeepers := [9] }

/-- The result of composing `txC3w` against `node3`: anchor selected at
height 11 with its Merkle proof. -/
def txC3r : Tx :=
  { txC3w with
    polyHeader := some ⟨6, ADDRESS_EMPTY, [], []⟩,
    anchorHeader := some ⟨11, ADDRESS_EMPTY, [], []⟩,
    anchorProof := "ap",
    merkleValue := some ⟨some ⟨"m", []⟩⟩,
    auditPath := [7],
    dstSigs := [] }

/-- A sync oracle whose submissions always fail with a fork error. -/
def node5 : SyncOracle :=
  { checkHeaderExistence := fun _ => .ok false,
    submitWithLoop := fun _ => some "parent header not exist" }

/-- A failing header at height 150. -/
def header5 : SideHeader := ⟨150, [1], []⟩

/-- A sync oracle whose submissions always succeed. -/
def node8 : SyncOracle :=
  { checkHeaderExistence := fun _ => .ok false,
    submitWithLoop := fun _ => none }

/-- The i-th header of the C8 scenario stream. -/
def hdr8 (i : Nat) : SideHeader := ⟨1000 + i, [i], []⟩

/-- A failing header at exactly height 100. -/
def header10 : SideHeader := ⟨100, [1], []⟩

/-- A failing header at height 37 (below the rollback margin). -/
def header10w : SideHeader := ⟨37, [2], []⟩

/-! # Claims -/

/-- C7: `submit` rejects a Tx with the missing-fields error when any of
srcHeight, srcProof, srcEvent, srcChainId, srcHash, srcProofHeight is
empty or zero; with all present, malformed hex in the source event or
in the source proof fails with the field-specific error carrying that
field's value; and `submit` succeeds iff both decodes and the
hub-chain import call succeed, recording the resulting hub-chain
transaction hash on the Tx. -/
theorem C7_submit_characterization (node : ImportOracle) (tx : Tx) :
    (¬ srcFieldsPresent tx → submit node tx = .error .missingFields) ∧
    (srcFieldsPresent tx → hexDecode tx.srcEvent = none →
      submit node tx = .error (.decodeEvent tx.srcEvent)) ∧
    (srcFieldsPresent tx → ∀ v, hexDecode tx.srcEvent = some v →
      hexDecode tx.srcProof = none →
      submit node tx = .error (.decodeProof tx.srcProof)) ∧
    (srcFieldsPresent tx → ∀ v p e, hexDecode tx.srcEvent = some v →
      hexDecode tx.srcProof = some p →
      node.importOuterTransfer tx.srcChainId v (tx.srcProofHeight % 2 ^ 32) p
        = .error e →
      submit node tx = .error (.importFailed e)) ∧
    (∀ tx', submit node tx = .ok tx' ↔
      srcFieldsPresent tx ∧ ∃ v p h, hexDecode tx.srcEvent = some v ∧
        hexDecode tx.srcProof = some p ∧
        node.importOuterTransfer tx.srcChainId v (tx.srcProofHeight % 2 ^ 32) p
          = .ok h ∧
        tx' = { tx with polyHash := h }) := by
  have hcond : (tx.srcHeight = 0 ∨ tx.srcProof = "" ∨ tx.srcEvent = "" ∨
      tx.srcChainId = 0 ∨ tx.srcHash = "" ∨ tx.srcProofHeight = 0) ↔
      ¬ srcFieldsPresent tx := by
    unfold srcFieldsPresent; tauto
  refine ⟨?_, ?_, ?_, ?_, ?_⟩
  · intro h
    unfold submit
    rw [if_pos (hcond.mpr h)]
  · intro h hev
    unfold submit
    rw [if_neg (fun hc => hcond.mp hc h), hev]
  · intro h v hev hprf
    unfold submit
    rw [if_neg (fun hc => hcond.mp hc h), hev, hprf]
  · intro h v p e hev hprf himp
    unfold submit
    rw [if_neg (fun hc => hcond.mp hc h), hev, hprf]
    simp only [himp]
  · intro tx'
    constructor
    · intro hok
      unfold submit at hok
      split at hok
      · exact absurd hok (by simp)
      · rename_i hc
        refine ⟨hcond.not_left.mp (by simpa using hc), ?_⟩
        split at hok
        · exact absurd hok (by simp)
        · rename_i v hev
          split at hok
          · exact absurd hok (by simp)
          · rename_i p hprf
            split at hok
            · exact absurd hok (by simp)
            · rename_i h himp
              exact ⟨v, p, h, hev, hprf, himp, by
                simpa using hok.symm⟩
    · rintro ⟨h, v, p, hh, hev, hprf, himp, rfl⟩
      unfold submit
      rw [if_neg (fun hc => hcond.mp hc h), hev, hprf]
      simp only [himp]

/-- C7 witness: a concrete Tx with all fields present and well-formed
hex is submitted successfully and the hub hash "dead" is recorded. -/
theorem C7_submit_witness :
    srcFieldsPresent tx7 ∧
    submit node7 tx7 = .ok { tx7 with polyHash := "dead" } := by
  refine ⟨by decide, ?_⟩
  exact ((C7_submit_characterization node7 tx7).2.2.2.2 _).mpr
    ⟨by decide, [171], [205], "dead", by decide, by decide, rfl, rfl⟩

/-- C9: a cross-chain-manager notification whose first argument is
"makeProof" and which has six positional arguments makes `Scan` produce
a Tx with srcChainId from argument 2, dstChainId from argument 3 (a
zero destination chain id is skipped, not a scan failure), txId from
argument 4 (byte-reversed for NEO/NEO3/ONT source chains), polyKey from
argument 6, and polyHeight the scanned block height; the spec's
block-1000 example scenario holds. -/
theorem C9_scan_fields (h : Nat) (hash : String) (src dst : Nat)
    (txid key : String) (arg5 : Nat) :
    (dst ≠ 0 → scanNotify h hash
        ⟨CCM_ADDRESS, [.str "makeProof", .num src, .num dst, .str txid,
                       .num arg5, .str key]⟩ =
      some (some { dstChainId := dst, polyKey := key,
                   polyHeight := h % 2 ^ 32, polyHash := hash,
                   txType := .poly,
                   txId := if src = NEO ∨ src = NEO3 ∨ src = ONT then
                       reverseHex txid
                     else txid,
                   srcChainId := src })) ∧
    (dst = 0 → scanNotify h hash
        ⟨CCM_ADDRESS, [.str "makeProof", .num src, .num dst, .str txid,
                       .num arg5, .str key]⟩ = some none) ∧
    Scan 1000 [⟨"hash1", [⟨CCM_ADDRESS,
        [.str "makeProof", .num 2, .num 3, .str "tx123", .num 1000,
         .str "stateKey1"]⟩]⟩] =
      some [{ srcChainId := 2, dstChainId := 3, txId := "tx123",
              polyKey := "stateKey1", polyHeight := 1000,
              polyHash := "hash1", txType := .poly }] := by
  refine ⟨?_, ?_, by decide⟩
  · intro hd
    simp [scanNotify, SVal.asString, SVal.asNum, List.get?, hd]
  · intro hd
    subst hd
    simp [scanNotify, SVal.asString, SVal.asNum, List.get?]

/-- C9 witness: the spec's example notification at block 1000 produces
exactly the claimed record (source chain 2 is not an endianness-reversed
chain, so the tx id is kept as-is). -/
theorem C9_scan_fields_witness :
    scanNotify 1000 "hash1"
        ⟨CCM_ADDRESS, [.str "makeProof", .num 2, .num 3, .str "tx123",
                       .num 1000, .str "stateKey1"]⟩ =
      some (some { srcChainId := 2, dstChainId := 3, txId := "tx123",
                   polyKey := "stateKey1", polyHeight := 1000,
                   polyHash := "hash1", txType := .poly }) := by
  have h := (C9_scan_fields 1000 "hash1" 2 3 "tx123" "stateKey1" 1000).1
    (by decide)
  norm_num [NEO, NEO3, ONT] at h
  exact h

/-- The retry loop of `Validate` can only return the primary error (or
diverge by panic), never success. -/
theorem validateLoop_not_ok (tx : Tx) (e : VErr) (nodes : List ValidateNode) :
    validateLoop tx e nodes ≠ some (.ok ()) := by
  induction nodes with
  | nil => simp [validateLoop]
  | cons n rest ih =>
    unfold validateLoop
    split
    · simp
    · simp
    · exact ih

/-- C6: a source- or destination-chain-id mismatch with the re-derived
record raises the corresponding transaction-violation error; a
case-insensitive destination-contract mismatch raises a violation too;
an absent derivable proof value yields the distinct proof-missing error,
which is not a violation; `validate` succeeds only when every check
passed; and `Validate` never swallows a primary violation by returning
success. -/
theorem C6_validate_violations (node : ValidateNode) (tx : Tx) :
    (∀ t, scanTx tx.polyHash (node.getSmartContractEvent tx.polyHash)
        = some (.ok t) →
      ((tx.srcChainId ≠ t.srcChainId →
          validate node tx =
            some (.error (.violationSrcChainId tx.srcChainId t.srcChainId)) ∧
          (VErr.violationSrcChainId tx.srcChainId t.srcChainId).isViolation
            = true) ∧
       (tx.srcChainId = t.srcChainId → tx.dstChainId ≠ t.dstChainId →
          validate node tx =
            some (.error (.violationDstChainId tx.dstChainId t.dstChainId)) ∧
          (VErr.violationDstChainId tx.dstChainId t.dstChainId).isViolation
            = true) ∧
       (tx.srcChainId = t.srcChainId → tx.dstChainId = t.dstChainId →
          node.getProofValue t.polyHeight t.polyKey = .ok none →
          validate node tx = some (.error .proofMissing) ∧
          VErr.proofMissing.isViolation = false) ∧
       (∀ v p, tx.srcChainId = t.srcChainId → tx.dstChainId = t.dstChainId →
          node.getProofValue t.polyHeight t.polyKey = .ok (some v) →
          v.makeTxParam = some p →
          lowerHex (hexEncode p.toContractAddress) ≠ lowerHex tx.dstProxy →
          validate node tx = some (.error (.violationToContract
            (lowerHex tx.dstProxy)
            (lowerHex (hexEncode p.toContractAddress)))) ∧
          (VErr.violationToContract (lowerHex tx.dstProxy)
            (lowerHex (hexEncode p.toContractAddress))).isViolation = true) ∧
       (validate node tx = some (.ok ()) →
          tx.srcChainId = t.srcChainId ∧ tx.dstChainId = t.dstChainId ∧
          ∃ v p, node.getProofValue t.polyHeight t.polyKey = .ok (some v) ∧
            v.makeTxParam = some p ∧
            lowerHex (hexEncode p.toContractAddress) = lowerHex tx.dstProxy))) ∧
    (∀ others, Validate node others tx = some (.ok ()) →
      validate node tx = some (.ok ())) := by
  constructor
  · intro t hscan
    have hval : validate node tx =
        (if tx.srcChainId ≠ t.srcChainId then
          some (.error (.violationSrcChainId tx.srcChainId t.srcChainId))
        else if tx.dstChainId ≠ t.dstChainId then
          some (.error (.violationDstChainId tx.dstChainId t.dstChainId))
        else
          match node.getProofValue t.polyHeight t.polyKey with
          | .error e => some (.error (.rpc e))
          | .ok none => some (.error .proofMissing)
          | .ok (some value) =>
            match value.makeTxParam with
            | none => none
            | some p =>
              if lowerHex (hexEncode p.toContractAddress) ≠
                  lowerHex tx.dstProxy then
                some (.error (.violationToContract (lowerHex tx.dstProxy)
                  (lowerHex (hexEncode p.toContractAddress))))
              else some (.ok ())) := by
      unfold validate
      rw [hscan]
    refine ⟨?_, ?_, ?_, ?_, ?_⟩
    · intro hne
      refine ⟨?_, rfl⟩
      rw [hval, if_pos hne]
    · intro heq hne
      refine ⟨?_, rfl⟩
      rw [hval, if_neg (by simp [heq]), if_pos hne]
    · intro h1 h2 hpf
      refine ⟨?_, rfl⟩
      rw [hval, if_neg (by simp [h1]), if_neg (by simp [h2])]
      simp only [hpf]
    · intro v p h1 h2 hpf hmp hne
      refine ⟨?_, rfl⟩
      rw [hval, if_neg (by simp [h1]), if_neg (by simp [h2])]
      simp only [hpf, hmp]
      rw [if_pos hne]
    · intro hok
      rw [hval] at hok
      split at hok
      · exact absurd hok (by simp)
      · split at hok
        · exact absurd hok (by simp)
        · rename_i h1 h2
          refine ⟨not_not.mp h1, not_not.mp h2, ?_⟩
          split at hok
          · exact absurd hok (by simp)
          · exact absurd hok (by simp)
          · rename_i v hpf
            split at hok
            · exact absurd hok (by simp)
            · rename_i p hmp
              split at hok
              · exact absurd hok (by simp)
              · rename_i hcontract
                exact ⟨v, p, hpf, hmp, not_not.mp hcontract⟩
  · intro others hV
    unfold Validate at hV
    split at hV
    · exact absurd hV (by simp)
    · assumption
    · exact absurd hV (validateLoop_not_ok tx _ others)

/-- C6 witness: a Tx claiming source chain 2 while the re-derived record
says 7 is rejected with the source-chain-id violation. -/
theorem C6_validate_violations_witness :
    validate vnode6 tx6 = some (.error (.violationSrcChainId 2 7)) ∧
    (VErr.violationSrcChainId 2 7).isViolation = true := by
  have h := ((C6_validate_violations vnode6 tx6).1
    { dstChainId := 3, polyKey := "k", polyHeight := 9, polyHash := "h",
      txType := .poly, txId := "t", srcChainId := 7 }
    (by decide)).1 (by decide)
  simpa [tx6] using h

/-- C4: for a Tx with non-empty DstPolyKeepers, `CheckEpoch` reports no
rotation on a header whose next-bookkeeper field is the empty address;
on any other header whose payload decodes and whose keys encode, it
reports rotation exactly iff the canonical encoding (keeper count, then
per decoded, sorted key the length-prefixed trailing-20-bytes-of-
Keccak256 derivation) differs byte-for-byte from the Tx's recorded
DstPolyKeepers encoding. -/
theorem C4_check_epoch (c : Crypto) (tx : Tx) (hdr : PolyHeader)
    (hk : tx.dstPolyKeepers ≠ []) :
    (hdr.nextBookkeeper = ADDRESS_EMPTY →
      checkEpoch c tx hdr = .ok (false, [])) ∧
    (hdr.nextBookkeeper ≠ ADDRESS_EMPTY →
      ∀ info, c.unmarshalVbft hdr.consensusPayload = .ok info →
      ∀ enc, keeperSink c info = .ok enc →
      ∃ pks b, checkEpoch c tx hdr = .ok (b, pks) ∧
        (b = true ↔ enc ≠ tx.dstPolyKeepers)) := by
  constructor
  · intro he
    unfold checkEpoch
    rw [if_neg hk, if_pos he]
  · intro he info hinfo enc henc
    unfold keeperSink at henc
    rcases hloop : encodeKeeperLoop c (sortedKeepers c info) with e | ⟨pks, body⟩
    · rw [hloop] at henc
      exact absurd henc (by simp)
    · simp only [hloop, Except.ok.injEq] at henc
      refine ⟨pks,
        decide ((writeUint64LE (sortedKeepers c info).length ++ body)
          ≠ tx.dstPolyKeepers), ?_, ?_⟩
      · unfold checkEpoch
        rw [if_neg hk, if_neg he]
        simp only [hinfo, hloop]
      · rw [← henc]
        simp [decide_eq_true_iff]

/-- C4 witness: a concrete header with a non-empty next bookkeeper and
one decoded peer, against a Tx recording a different keeper encoding,
reports rotation. -/
theorem C4_check_epoch_witness :
    hdr4.nextBookkeeper ≠ ADDRESS_EMPTY ∧
    ∃ pks b, checkEpoch crypto4 tx4 hdr4 = .ok (b, pks) ∧
      (b = true ↔ ([1, 0, 0, 0, 0, 0, 0, 0, 1, 10] : Bytes)
        ≠ tx4.dstPolyKeepers) := by
  refine ⟨by decide, ?_⟩
  exact (C4_check_epoch crypto4 tx4 hdr4 (by decide)).2 (by decide)
    ⟨[⟨"0a"⟩]⟩ (by decide) [1, 0, 0, 0, 0, 0, 0, 0, 1, 10] (by decide)

/-- Go uint64 subtraction agrees with truncated subtraction when no
underflow occurs. -/
theorem sub64_eq (a b : Nat) (hb : b ≤ a) (ha : a < 2 ^ 64)
    (hb2 : b < 2 ^ 64) : sub64 a b = a - b := by
  have h64 : (2 : ℕ) ^ 64 = 18446744073709551616 := by norm_num
  unfold sub64
  rw [h64] at ha hb2 ⊢
  omega

/-- C5: a failed single-mode header submission at height H signals
rollback height H - 100; a failed batch submission whose last buffered
header has height H with k buffered headers signals H - 100 - k; and the
batch commit block indeed fires at the height of the last buffered
header. (Heights within uint64 range and above the subtracted margin;
the wraparound below the margin is the subject of the companion
numerical claim.) -/
theorem C5_rollback_heights (node : SyncOracle) :
    (∀ h : SideHeader, ∀ e, node.checkHeaderExistence h = .ok false →
      node.submitWithLoop [h.data] = some e →
      100 ≤ h.height → h.height < 2 ^ 64 →
      syncSingleOne node h = [.flushLoop [h.data], .reset (h.height - 100)]) ∧
    (∀ height buf e, node.submitWithLoop buf = some e →
      100 + buf.length ≤ height → height < 2 ^ 64 →
      commitStep node height buf =
        [.flushLoop buf, .reset (height - 100 - buf.length)]) ∧
    (∀ (rest : List SyncEvent) (h : SideHeader) (h0 : Nat)
        (buf : List Bytes) (batch : Nat), (buf ++ [h.data]).length ≥ batch →
      syncBatch node batch (.recv h :: rest) h0 buf =
        commitStep node h.height (buf ++ [h.data]) ++
          syncBatch node batch rest h.height []) := by
  refine ⟨?_, ?_, ?_⟩
  · intro h e hex hsub h100 hlt
    unfold syncSingleOne
    simp only [hex, hsub]
    rw [sub64_eq h.height 100 h100 hlt (by norm_num)]
  · intro height buf e hsub hle hlt
    unfold commitStep
    simp only [hsub]
    rw [sub64_eq height 100 (by omega) hlt (by norm_num),
      sub64_eq (height - 100) buf.length (by omega) (by omega) (by omega)]
  · intro rest h h0 buf batch hge
    simp only [syncBatch]
    rw [if_pos hge]

/-- C5 witness: a failing header at height 150 signals 50 in single
mode; a failing two-header batch ending at height 150 signals 48. -/
theorem C5_rollback_heights_witness :
    syncSingleOne node5 header5 = [.flushLoop [[1]], .reset 50] ∧
    commitStep node5 150 [[1], [2]] = [.flushLoop [[1], [2]], .reset 48] := by
  constructor
  · have h := (C5_rollback_heights node5).1 header5 "parent header not exist"
      (by decide) (by decide) (by norm_num [header5]) (by norm_num [header5])
    simpa [header5] using h
  · have h := (C5_rollback_heights node5).2.1 150 [[1], [2]]
      "parent header not exist" (by decide) (by norm_num) (by norm_num)
    simpa using h

/-- C8: in batch mode with batchSize 4, the stream h1..h9 followed by
stream closure produces exactly three flushes in order — two full
retrying flushes of 4 headers and one final best-effort flush of 1,
which is a single submission with no retry loop and no rollback
signal. -/
theorem C8_batch_flushes (node : SyncOracle)
    (h1 h2 h3 h4 h5 h6 h7 h8 h9 : SideHeader)
    (hs1 : node.submitWithLoop [h1.data, h2.data, h3.data, h4.data] = none)
    (hs2 : node.submitWithLoop [h5.data, h6.data, h7.data, h8.data] = none) :
    syncBatch node 4 [.recv h1, .recv h2, .recv h3, .recv h4, .recv h5,
        .recv h6, .recv h7, .recv h8, .recv h9] 0 [] =
      [.flushLoop [h1.data, h2.data, h3.data, h4.data],
       .flushLoop [h5.data, h6.data, h7.data, h8.data],
       .flushFinal [h9.data]] := by
  simp [syncBatch, commitStep, hs1, hs2]

/-- C8 witness: the concrete nine-header stream with an accepting chain
produces flushes (4, 4) and a final best-effort flush of 1. -/
theorem C8_batch_flushes_witness :
    syncBatch node8 4 [.recv (hdr8 1), .recv (hdr8 2), .recv (hdr8 3),
        .recv (hdr8 4), .recv (hdr8 5), .recv (hdr8 6), .recv (hdr8 7),
        .recv (hdr8 8), .recv (hdr8 9)] 0 [] =
      [.flushLoop [[1], [2], [3], [4]], .flushLoop [[5], [6], [7], [8]],
       .flushFinal [[9]]] := by
  have h := C8_batch_flushes node8 (hdr8 1) (hdr8 2) (hdr8 3) (hdr8 4)
    (hdr8 5) (hdr8 6) (hdr8 7) (hdr8 8) (hdr8 9) (by decide) (by decide)
  simpa [hdr8] using h

/-- C10 counterexample: at height exactly 100 (within the claimed range
H ≤ 100) the single-mode rollback value is exactly 0, not a value near
2^64. -/
theorem C10_counterexample :
    syncSingleOne node5 header10 = [.flushLoop [[1]], .reset 0] ∧
    ¬ 2 ^ 63 ≤ (0 : Nat) := by
  exact ⟨by decide, by norm_num⟩

/-- C10 (amended): for a failing header at height H < 100 in single
mode the uint64 rollback value wraps to 2^64 - (100 - H), a value
within 100 of 2^64, and at H = 100 it is exactly 0; in batch mode with
k buffered headers and last height H < 100 + k it wraps to
2^64 - (100 + k - H), a value within 100 + k of 2^64, and at exactly
H = 100 + k it is exactly 0. -/
theorem C10_wrap_amended (node : SyncOracle) (h : SideHeader) (e : String)
    (hex : node.checkHeaderExistence h = .ok false)
    (hsub : node.submitWithLoop [h.data] = some e) :
    (h.height < 100 →
      syncSingleOne node h =
        [.flushLoop [h.data], .reset (2 ^ 64 - (100 - h.height))] ∧
      2 ^ 64 - 100 ≤ 2 ^ 64 - (100 - h.height)) ∧
    (h.height = 100 →
      syncSingleOne node h = [.flushLoop [h.data], .reset 0]) ∧
    (∀ height buf e', node.submitWithLoop buf = some e' →
      height < 100 + buf.length → buf.length ≤ 2 ^ 64 - 100 →
      commitStep node height buf =
        [.flushLoop buf, .reset (2 ^ 64 - (100 + buf.length - height))] ∧
      2 ^ 64 - 100 - buf.length ≤ 2 ^ 64 - (100 + buf.length - height)) ∧
    (∀ height buf e', node.submitWithLoop buf = some e' →
      height = 100 + buf.length → buf.length ≤ 2 ^ 64 - 100 →
      commitStep node height buf = [.flushLoop buf, .reset 0]) := by
  have h64 : (2 : ℕ) ^ 64 = 18446744073709551616 := by norm_num
  refine ⟨?_, ?_, ?_, ?_⟩
  · intro hlt
    constructor
    · unfold syncSingleOne
      simp only [hex, hsub]
      have : sub64 h.height 100 = 2 ^ 64 - (100 - h.height) := by
        unfold sub64
        rw [h64]
        omega
      rw [this]
    · rw [h64]; omega
  · intro h100
    unfold syncSingleOne
    simp only [hex, hsub]
    have : sub64 h.height 100 = 0 := by
      unfold sub64
      rw [h64, h100]
    rw [this]
  · intro height buf e' hsub' hlt hlen
    constructor
    · unfold commitStep
      simp only [hsub']
      have : sub64 (sub64 height 100) buf.length =
          2 ^ 64 - (100 + buf.length - height) := by
        unfold sub64
        rw [h64] at hlen ⊢
        omega
      rw [this]
    · rw [h64] at hlen ⊢
      omega
  · intro height buf e' hsub' hb hlen
    unfold commitStep
    simp only [hsub']
    have : sub64 (sub64 height 100) buf.length = 0 := by
      unfold sub64
      rw [h64] at hlen ⊢
      omega
    rw [this]

/-- C10 witness: a failing header at height 37 signals
2^64 - 63 = 18446744073709551553, a value near 2^64; a failing
two-header batch ending exactly at height 102 = 100 + 2 signals exactly
0; and one ending at height 50 signals 2^64 - 52, a value near 2^64. -/
theorem C10_wrap_amended_witness :
    syncSingleOne node5 header10w =
      [.flushLoop [[2]], .reset 18446744073709551553] ∧
    commitStep node5 102 [[1], [2]] = [.flushLoop [[1], [2]], .reset 0] ∧
    commitStep node5 50 [[1], [2]] =
      [.flushLoop [[1], [2]], .reset 18446744073709551564] := by
  refine ⟨?_, ?_, ?_⟩
  · have h := ((C10_wrap_amended node5 header10w "parent header not exist"
      (by decide) (by decide)).1 (by norm_num [header10w])).1
    norm_num [header10w] at h
    exact h
  · have h := (C10_wrap_amended node5 header10w "parent header not exist"
      (by decide) (by decide)).2.2.2 102 [[1], [2]]
      "parent header not exist" (by decide) (by decide) (by decide)
    exact h
  · have h := ((C10_wrap_amended node5 header10w "parent header not exist"
      (by decide) (by decide)).2.2.1 50 [[1], [2]]
      "parent header not exist" (by decide) (by decide) (by decide)).1
    norm_num at h
    exact h

/-- The worker machine as written never reaches the pop/submit body:
from any state not already at the body, the queue, the pop count and the
submissions are left untouched by any schedule. -/
theorem runCode_never_pops (submitOk : Tx → Bool) (sched : List Bool)
    (s : RunState) (hpc : s.pc ≠ .atPop) :
    (runExec (runCodeStep submitOk) sched s).pops = s.pops ∧
    (runExec (runCodeStep submitOk) sched s).queue = s.queue ∧
    (runExec (runCodeStep submitOk) sched s).submitted = s.submitted := by
  induction sched generalizing s with
  | nil => exact ⟨rfl, rfl, rfl⟩
  | cons d rest ih =>
    have hstep : runCodeStep submitOk d s = s ∨
        runCodeStep submitOk d s = { s with pc := .exited } := by
      unfold runCodeStep
      cases hs : s.pc with
      | atSelect =>
        cases d
        · left; simp
        · right; simp
      | atPop => exact absurd hs hpc
      | exited => left; simp
    have hview : runExec (runCodeStep submitOk) (d :: rest) s =
        runExec (runCodeStep submitOk) rest (runCodeStep submitOk d s) := rfl
    rw [hview]
    rcases hstep with hs | hs <;> rw [hs]
    · exact ih s hpc
    · simpa using ih { s with pc := .exited } (by simp)

/-- C2: the run loop's `select` has no default case, so the worker as
written blocks on the done-signal and exits without ever popping: with
one transaction queued and done raised at the second observation, the
source's machine exits with zero pops and the queue untouched, while the
loop the spec describes pops and submits the transaction in the same
schedule. -/
theorem C2_run_loop_dead_code :
    (runExec (runCodeStep (fun _ => true)) [false, true]
        (runInit [{ polyHash := "t" }])).pc = .exited ∧
    (runExec (runCodeStep (fun _ => true)) [false, true]
        (runInit [{ polyHash := "t" }])).pops = 0 ∧
    (runExec (runCodeStep (fun _ => true)) [false, true]
        (runInit [{ polyHash := "t" }])).queue = [{ polyHash := "t" }] ∧
    (runExec (runSpecStep (fun _ => true)) [false, true]
        (runInit [{ polyHash := "t" }])).pops = 1 ∧
    (runExec (runSpecStep (fun _ => true)) [false, true]
        (runInit [{ polyHash := "t" }])).submitted = [{ polyHash := "t" }] := by
  decide

/-- C1: the allow-list gate of `ComposeTx` is inverted relative to the
claim: with an allow-list containing exactly "unlock", a decoded
parameter invoking "unlock" is rejected with the invalid-transaction
error, while one invoking the non-allow-listed "steal" proceeds all the
way to signature collection; the missing-parameter case is rejected by
both the source gate and the spec gate. -/
theorem C1_allow_list_gate_inverted :
    composeTx nodeC1a trivCrypto conv0 allowOnlyUnlock txC1 =
      some (.error (.invalidTx 2 "ph" "missing param")) ∧
    composeTx nodeC1b trivCrypto conv0 allowOnlyUnlock txC1 =
      some (.ok ({ txC1 with
        polyHeader := some ⟨6, ADDRESS_EMPTY, [], []⟩,
        merkleValue := some ⟨some ⟨"steal", []⟩⟩,
        auditPath := [7], dstSigs := [] }, [.header 6])) ∧
    (composeTxRejects allowOnlyUnlock ⟨some ⟨"unlock", []⟩⟩ = true ∧
      specRejects allowOnlyUnlock ⟨some ⟨"unlock", []⟩⟩ = false) ∧
    (composeTxRejects allowOnlyUnlock ⟨some ⟨"steal", []⟩⟩ = false ∧
      specRejects allowOnlyUnlock ⟨some ⟨"steal", []⟩⟩ = true) ∧
    (composeTxRejects allowOnlyUnlock ⟨none⟩ = true ∧
      specRejects allowOnlyUnlock ⟨none⟩ = true) := by
  exact ⟨by decide, by decide, ⟨by decide, by decide⟩,
    ⟨by decide, by decide⟩, ⟨by decide, by decide⟩⟩

/-- `CheckEpoch` reads only the Tx's recorded keeper encoding. -/
theorem checkEpoch_congr (c : Crypto) (tx1 tx2 : Tx) (hdr : PolyHeader)
    (h : tx1.dstPolyKeepers = tx2.dstPolyKeepers) :
    checkEpoch c tx1 hdr = checkEpoch c tx2 hdr := by
  unfold checkEpoch
  rw [h]

/-- A successful anchor fetch at a nonzero height stores the fetched
header and audit path and records both fetches. -/
theorem fetchAnchor_pos (node : ComposeNode) (tx : Tx) (ph a : Nat)
    (ha : a ≠ 0) (tx2 : Tx) (log1 : List Fetch)
    (hfa : fetchAnchor node tx ph a = .ok (tx2, log1)) :
    ∃ ah ap, node.getHeaderByHeight a = .ok ah ∧
      node.getMerkleProof ((ph + 1) % 2 ^ 32) a = .ok ap ∧
      tx2 = { tx with anchorHeader := some ah, anchorProof := ap } ∧
      log1 = [.header a, .merkleProof ((ph + 1) % 2 ^ 32) a] := by
  unfold fetchAnchor at hfa
  rw [if_pos (Nat.pos_of_ne_zero ha)] at hfa
  split at hfa
  · exact absurd hfa (by simp)
  · rename_i ah hah
    split at hfa
    · exact absurd hfa (by simp)
    · rename_i ap hap
      rw [Except.ok.injEq, Prod.mk.injEq] at hfa
      exact ⟨ah, ap, hah, hap, hfa.1.symm, hfa.2.symm⟩

/-- With anchor height zero, no fetch happens and the Tx is returned
unchanged. -/
theorem fetchAnchor_zero (node : ComposeNode) (tx : Tx) (ph : Nat) :
    fetchAnchor node tx ph 0 = .ok (tx, []) := by
  unfold fetchAnchor
  simp

/-- `CollectSigs` only sets the aggregated signatures; the anchor header
and proof pass through untouched. -/
theorem collectSigs_preserves (conv : Bytes → Except String Bytes)
    (tx tx' : Tx) (h : collectSigs conv tx = some (.ok tx')) :
    tx'.anchorHeader = tx.anchorHeader ∧ tx'.anchorProof = tx.anchorProof := by
  unfold collectSigs at h
  split at h <;> simp only [] at h <;> split at h
  · exact absurd h (by simp)
  · rename_i sigs hsigs
    rw [Option.some.injEq, Except.ok.injEq] at h
    rw [← h]
    exact ⟨rfl, rfl⟩
  · exact absurd h (by simp)
  · rename_i hdr hhdr
    split at h
    · exact absurd h (by simp)
    · rename_i sigs hsigs
      rw [Option.some.injEq, Except.ok.injEq] at h
      rw [← h]
      exact ⟨rfl, rfl⟩

/-- A successful `composeFinish` leaves the anchor header and proof of
its input Tx untouched and returns the fetch log it was given. -/
theorem composeFinish_anchor (node : ComposeNode)
    (conv : Bytes → Except String Bytes) (allow : String → Bool)
    (tx : Tx) (log0 : List Fetch) (tx' : Tx) (log : List Fetch)
    (hok : composeFinish node conv allow tx log0 = some (.ok (tx', log))) :
    tx'.anchorHeader = tx.anchorHeader ∧ tx'.anchorProof = tx.anchorProof ∧
    log = log0 := by
  unfold composeFinish at hok
  split at hok
  · exact absurd hok (by simp)
  · rename_i mv path hmv
    simp only [] at hok
    split at hok
    · split at hok <;> exact absurd hok (by simp)
    · split at hok
      · exact absurd hok (by simp)
      · exact absurd hok (by simp)
      · rename_i txS hsigs
        rw [Option.some.injEq, Except.ok.injEq, Prod.mk.injEq] at hok
        obtain ⟨h1, h2⟩ := hok
        have hp := collectSigs_preserves conv _ txS hsigs
        subst h1
        exact ⟨hp.1, hp.2, h2.symm⟩

/-- The anchor block followed by the composition tail: the anchor header
and Merkle proof are fetched and stored exactly when the anchor height
is nonzero, and the fetch log records exactly what was fetched. -/
theorem composeAnchorStage (node : ComposeNode)
    (conv : Bytes → Except String Bytes) (allow : String → Bool)
    (tx1 : Tx) (ph a : Nat) (tx' : Tx) (log : List Fetch)
    (hok : (match fetchAnchor node tx1 ph a with
        | .error e => some (.error (.rpc e))
        | .ok (tx2, log1) =>
          composeFinish node conv allow tx2
            (.header ((ph + 1) % 2 ^ 32) :: log1)) = some (.ok (tx', log))) :
    log = .header ((ph + 1) % 2 ^ 32) ::
      (if a ≠ 0 then [.header a, .merkleProof ((ph + 1) % 2 ^ 32) a]
       else []) ∧
    (a ≠ 0 → ∃ ah ap, node.getHeaderByHeight a = .ok ah ∧
      node.getMerkleProof ((ph + 1) % 2 ^ 32) a = .ok ap ∧
      tx'.anchorHeader = some ah ∧ tx'.anchorProof = ap) ∧
    (a = 0 → tx'.anchorHeader = tx1.anchorHeader ∧
      tx'.anchorProof = tx1.anchorProof) := by
  by_cases haz : a = 0
  · subst haz
    rw [fetchAnchor_zero] at hok
    simp only [] at hok
    have h := composeFinish_anchor node conv allow tx1 _ tx' log hok
    refine ⟨by rw [h.2.2]; simp, by simp, fun _ => ⟨h.1, h.2.1⟩⟩
  · rcases hfa : fetchAnchor node tx1 ph a with e | p
    · rw [hfa] at hok
      exact absurd hok (by simp)
    · obtain ⟨tx2, log1⟩ := p
      rw [hfa] at hok
      simp only [] at hok
      obtain ⟨ah, ap, hah, hap, htx2, hlog1⟩ :=
        fetchAnchor_pos node tx1 ph a haz tx2 log1 hfa
      have h := composeFinish_anchor node conv allow tx2 _ tx' log hok
      subst htx2
      subst hlog1
      refine ⟨by rw [h.2.2]; simp [haz], ?_, fun hz => absurd hz haz⟩
      intro _
      refine ⟨ah, ap, hah, hap, ?_, ?_⟩
      · rw [h.1]
      · rw [h.2.1]

/-- C3 (amended): the anchor height is computed in uint32 arithmetic —
`(dstPolyEpochStartHeight + 1) % 2^32` when the confirmation height is
below the recorded epoch start, `(polyHeight + 2) % 2^32` when epoch
detection on the header at `polyHeight + 1` reports a keeper change, 0
otherwise — and the anchor header and Merkle proof are fetched and
stored on the Tx exactly when that height is nonzero, so a wrapping
increment yields no anchor. -/
theorem C3_anchor_rule_amended (node : ComposeNode) (c : Crypto)
    (conv : Bytes → Except String Bytes) (allow : String → Bool)
    (tx tx' : Tx) (log : List Fetch)
    (hph : tx.polyHeight ≠ 0)
    (hok : composeTx node c conv allow tx = some (.ok (tx', log))) :
    ∃ hdr, node.getHeaderByHeight ((tx.polyHeight + 1) % 2 ^ 32) = .ok hdr ∧
    ∃ a, ((tx.polyHeight < tx.dstPolyEpochStartHeight ∧
            a = (tx.dstPolyEpochStartHeight + 1) % 2 ^ 32) ∨
          (¬ tx.polyHeight < tx.dstPolyEpochStartHeight ∧
            ∃ pks isEp, checkEpoch c tx hdr = .ok (isEp, pks) ∧
              a = if isEp then (tx.polyHeight + 2) % 2 ^ 32 else 0)) ∧
      log = .header ((tx.polyHeight + 1) % 2 ^ 32) ::
        (if a ≠ 0 then
          [.header a, .merkleProof ((tx.polyHeight + 1) % 2 ^ 32) a]
        else []) ∧
      (a ≠ 0 → ∃ ah ap, node.getHeaderByHeight a = .ok ah ∧
        node.getMerkleProof ((tx.polyHeight + 1) % 2 ^ 32) a = .ok ap ∧
        tx'.anchorHeader = some ah ∧ tx'.anchorProof = ap) ∧
      (a = 0 → tx'.anchorHeader = tx.anchorHeader ∧
        tx'.anchorProof = tx.anchorProof) := by
  unfold composeTx at hok
  by_cases h1 : tx.polyHash = ""
  · rw [if_pos h1] at hok
    exact absurd hok (by simp)
  rw [if_neg h1] at hok
  by_cases h2 : tx.dstPolyEpochStartHeight = 0
  · rw [if_pos h2] at hok
    exact absurd hok (by simp)
  rw [if_neg h2] at hok
  rw [if_neg hph] at hok
  split at hok
  · rename_i e he
    exact absurd he (by simp)
  rename_i ph hpheq
  rw [Except.ok.injEq] at hpheq
  subst hpheq
  split at hok
  · exact absurd hok (by simp)
  rename_i hdr hhdr
  refine ⟨hdr, hhdr, ?_⟩
  by_cases hlt : tx.polyHeight < tx.dstPolyEpochStartHeight
  · rw [if_pos hlt] at hok
    simp only [] at hok
    have h := composeAnchorStage node conv allow
      { tx with polyHeight := tx.polyHeight, polyHeader := some hdr }
      tx.polyHeight ((tx.dstPolyEpochStartHeight + 1) % 2 ^ 32) tx' log hok
    exact ⟨(tx.dstPolyEpochStartHeight + 1) % 2 ^ 32, Or.inl ⟨hlt, rfl⟩,
      h.1, h.2.1, fun hz => h.2.2 hz⟩
  · rw [if_neg hlt] at hok
    rw [checkEpoch_congr c
      { tx with polyHeight := tx.polyHeight, polyHeader := some hdr }
      tx hdr rfl] at hok
    rcases hce : checkEpoch c tx hdr with e | p
    · rw [hce] at hok
      exact absurd hok (by simp)
    · obtain ⟨isEp, pks⟩ := p
      rw [hce] at hok
      simp only [] at hok
      have h := composeAnchorStage node conv allow
        { tx with polyHeight := tx.polyHeight, polyHeader := some hdr }
        tx.polyHeight (if isEp then (tx.polyHeight + 2) % 2 ^ 32 else 0)
        tx' log hok
      exact ⟨if isEp then (tx.polyHeight + 2) % 2 ^ 32 else 0,
        Or.inr ⟨hlt, pks, isEp, rfl, rfl⟩, h.1, h.2.1, fun hz => h.2.2 hz⟩

/-- C3 counterexample: with `dstPolyEpochStartHeight = 2^32 - 1` and
`polyHeight = 5 < dstPolyEpochStartHeight`, the claim demands an anchor
at `dstPolyEpochStartHeight + 1`, but the uint32 increment wraps to 0
and the successful composition fetches no anchor header and stores no
anchor proof: the only fetch is the primary header at height 6. -/
theorem C3_counterexample :
    tx3.polyHeight < tx3.dstPolyEpochStartHeight ∧
    ((composeTx node3 trivCrypto conv0 allow3 tx3).map (fun r =>
        r.toOption.map (fun p => (p.1.anchorHeader, p.1.anchorProof, p.2))))
      = some (some (none, "", [.header 6])) := by
  exact ⟨by decide, by decide⟩

/-- C3 witness: a Tx at confirmation height 5 before epoch start 10 is
composed with the anchor fetched at height 11 = epoch start + 1,
together with the Merkle proof linking height 6 to it. -/
theorem C3_anchor_rule_amended_witness :
    ∃ hdr, node3.getHeaderByHeight ((txC3w.polyHeight + 1) % 2 ^ 32)
        = .ok hdr ∧
    ∃ a, ((txC3w.polyHeight < txC3w.dstPolyEpochStartHeight ∧
            a = (txC3w.dstPolyEpochStartHeight + 1) % 2 ^ 32) ∨
          (¬ txC3w.polyHeight < txC3w.dstPolyEpochStartHeight ∧
            ∃ pks isEp, checkEpoch trivCrypto txC3w hdr = .ok (isEp, pks) ∧
              a = if isEp then (txC3w.polyHeight + 2) % 2 ^ 32 else 0)) ∧
      [Fetch.header 6, Fetch.header 11, Fetch.merkleProof 6 11] =
        Fetch.header ((txC3w.polyHeight + 1) % 2 ^ 32) ::
        (if a ≠ 0 then
          [Fetch.header a,
           Fetch.merkleProof ((txC3w.polyHeight + 1) % 2 ^ 32) a]
        else []) ∧
      (a ≠ 0 → ∃ ah ap, node3.getHeaderByHeight a = .ok ah ∧
        node3.getMerkleProof ((txC3w.polyHeight + 1) % 2 ^ 32) a = .ok ap ∧
        txC3r.anchorHeader = some ah ∧ txC3r.anchorProof = ap) ∧
      (a = 0 → txC3r.anchorHeader = txC3w.anchorHeader ∧
        txC3r.anchorProof = txC3w.anchorProof) :=
  C3_anchor_rule_amended node3 trivCrypto conv0 allow3 txC3w txC3r
    [Fetch.header 6, Fetch.header 11, Fetch.merkleProof 6 11]
    (by decide) (by decide)

end PolyRelayer
